import Mathlib

/-!
Shallow embedding of the yiila core runtime (`lib/index.js`): the alias
resolver, class importer, lazy resolution registry (the Proxy `get`
handler), component factory and application singleton manager, together
with a model of the Node `path` primitives (`join`, `resolve`, `basename`)
in their Node 0.8 posix semantics, which is the platform generation this
code targets (directory aliases rely on `path.join` silently filtering the
hole that `delete args[args.length-1]` leaves in the segment array, which
Node 0.8 does and later versions reject).

External effects are made explicit: a `World` bundles the process working
directory, the module directory (`__dirname`), the debug flag
(`GLOBAL.YIILA_DEBUG`), a filesystem probe (`fs.statSync` succeeding with
a regular file) and the module loader (`require`).  The module-level and
closure-level tables of the source are gathered into one `Yiila` state
record and every operation threads it explicitly.
-/

/-! ## String helpers (structural recursion, kernel-reducible) -/

/-- Split a list of characters at every occurrence of `sep`
(JavaScript `String.prototype.split` with a one-character separator). -/
def splitChar (sep : Char) : List Char → List (List Char)
  | [] => [[]]
  | c :: cs =>
    let r := splitChar sep cs
    if c = sep then [] :: r
    else
      match r with
      | h :: t => (c :: h) :: t
      | [] => [[c]]

/-- `s.split(sep)` on strings. -/
def strSplit (s : String) (sep : Char) : List String :=
  (splitChar sep s.data).map (fun l => ⟨l⟩)

/-- Join strings with a one-character separator. -/
def joinWith (sep : Char) (parts : List String) : String :=
  ⟨List.intercalate [sep] (parts.map String.data)⟩

/-- `path.charAt(0) === '/'`. -/
def headIsSlash (s : String) : Bool :=
  match s.data with
  | '/' :: _ => true
  | _ => false

/-- `path.slice(-1) === '/'`. -/
def lastIsSlash (s : String) : Bool :=
  match s.data.getLast? with
  | some '/' => true
  | _ => false

/-- `alias.indexOf('.')`: split at the first dot into root and rest,
`none` when the string has no dot. -/
def firstDotSplit (a : String) : Option (String × String) :=
  match strSplit a '.' with
  | [] => none
  | [_] => none
  | root :: rest => some (root, joinWith '.' rest)

/-- `alias.lastIndexOf('.')`: the substring after the last dot,
`none` when the string has no dot. -/
def lastDotSegment (a : String) : Option String :=
  match strSplit a '.' with
  | [] => none
  | [_] => none
  | parts => parts.getLast?

/-! ## Association lists standing for plain JavaScript objects -/

/-- `m[k]` as an own-property lookup. -/
def lookupStr {α : Type} : List (String × α) → String → Option α
  | [], _ => none
  | (k', v) :: rest, k => if k' = k then some v else lookupStr rest k

/-- `m[k] = v`: overwrite in place when present, append otherwise. -/
def setKey {α : Type} : List (String × α) → String → α → List (String × α)
  | [], k, v => [(k, v)]
  | (k', v') :: rest, k, v =>
    if k' = k then (k, v) :: rest else (k', v') :: setKey rest k v

/-- `delete m[k]`. -/
def delKey {α : Type} : List (String × α) → String → List (String × α)
  | [], _ => []
  | (k', v') :: rest, k =>
    if k' = k then delKey rest k else (k', v') :: delKey rest k

/-- `if (m[k]) ...`: a truthy lookup in a string-valued table; the empty
string is falsy. -/
def lookupTruthy (m : List (String × String)) (k : String) : Option String :=
  match lookupStr m k with
  | some v => if v = "" then none else some v
  | none => none

/-! ## Node 0.8 posix `path` primitives -/

/-- `normalizeArray(parts, allowAboveRoot)`: resolve `.` and `..`
segments; `..` may accumulate at the front only for relative paths. -/
def normalizeParts (allowAboveRoot : Bool) (parts : List String) : List String :=
  parts.foldl
    (fun acc part =>
      if part = "." then acc
      else if part = ".." then
        match acc.getLast? with
        | some l =>
          if l ≠ ".." then acc.dropLast
          else if allowAboveRoot then acc ++ [".."] else acc
        | none => if allowAboveRoot then acc ++ [".."] else acc
      else acc ++ [part])
    []

/-- `path.normalize` (posix). -/
def pathNormalize (p : String) : String :=
  let isAbs := headIsSlash p
  let trailing := lastIsSlash p
  let body :=
    joinWith '/' (normalizeParts (!isAbs) ((strSplit p '/').filter (fun q => q ≠ "")))
  let body := if body = "" ∧ isAbs = false then "." else body
  let body := if body ≠ "" ∧ trailing = true then body ++ "/" else body
  (if isAbs then "/" else "") ++ body

/-- `path.join(...parts)` (posix, Node 0.8): non-strings and empty strings
are filtered out, the rest joined and normalized. -/
def pathJoin (parts : List String) : String :=
  pathNormalize (joinWith '/' (parts.filter (fun p => p ≠ "")))

/-- The final normalization step of `path.resolve`. -/
def resolvedNorm (s : String) (abs : Bool) : String :=
  let body :=
    joinWith '/' (normalizeParts (!abs) ((strSplit s '/').filter (fun q => q ≠ "")))
  let r := (if abs then "/" else "") ++ body
  if r = "" then "." else r

/-- `path.resolve(cwd, p)` (posix, Node 0.8), with `process.cwd()` equal to
`cwd` for the implicit final step of the right-to-left loop. -/
def pathResolve (cwd p : String) : String :=
  let s1 := if p = "" then "" else p ++ "/"
  if headIsSlash p then resolvedNorm s1 true
  else
    let s2 := if cwd = "" then s1 else cwd ++ "/" ++ s1
    if headIsSlash cwd then resolvedNorm s2 true
    else
      let s3 := if cwd = "" then s2 else cwd ++ "/" ++ s2
      resolvedNorm s3 (headIsSlash cwd)

/-- `path.basename` on separator-normalized paths: the last nonempty
`/`-segment. -/
def pathBasename (p : String) : String :=
  match ((strSplit p '/').filter (fun q => q ≠ "")).getLast? with
  | some b => b
  | none => ""

/-! ## JavaScript values -/

/-- The JavaScript values the claims exercise: `undefined`, strings,
loaded implementation constructors (identified by the module `require`
returned them from), the own methods of the `Base` object, plain objects
and constructed component instances (constructor, forwarded constructor
arguments, and properties assigned after construction). -/
inductive Value where
  | undef : Value
  | str : String → Value
  | func : Nat → Value
  | baseMethod : String → Value
  | obj : List (String × Value) → Value
  | inst : Nat → List Value → List (String × Value) → Value

/-- JavaScript truthiness of a `Value`. -/
def Value.truthy : Value → Bool
  | .undef => false
  | .str s => s ≠ ""
  | _ => true

/-- `ToPropertyKey`/`String(v)` coercion used when a non-string turns up
as a property key or as the argument of a string method. -/
def jsToString : Value → String
  | .undef => "undefined"
  | .str s => s
  | .func id => "function source " ++ toString id
  | .baseMethod m => "function " ++ m
  | .obj _ => "[object Object]"
  | .inst _ _ _ => "[object Object]"

/-! ## The thrown error taxonomy of `lib/index.js` -/

/-- Errors the core throws.  `multipleApplication` is
`'Application can only be created once.'`; `invalidAlias` the two
`Alias "{alias}" is invalid` messages; `classFileMismatch` the strict-mode
`Class name "{class}" does not match class file "{file}"` message;
`configurationError` the missing-`class`-element message; `typeError` a
runtime `TypeError` raised by calling a string method on a non-string or
constructing a non-function. -/
inductive JsErr where
  | multipleApplication : JsErr
  | invalidAlias : String → JsErr
  | classFileMismatch : String → String → JsErr
  | configurationError : JsErr
  | typeError : JsErr

/-! ## Process state and external world -/

/-- External collaborators of `lib/index.js`: `process.cwd()`,
`__dirname`, `GLOBAL.YIILA_DEBUG`, the filesystem probe (`fs.statSync`
succeeding with a regular-file stat) and the module loader (`require`). -/
structure World where
  cwd : String
  dirname : String
  debug : Bool
  statIsFile : String → Bool
  require : String → Value

/-- The process-wide tables of `lib/index.js`: the dynamic own properties
set on `Base` through the Proxy (`target[name] = ...`), `_classMap`,
`_includePaths` (`null` before the first directory import), `_imports`,
`_aliases` (the alias table and the compound-alias cache are one map), the
application slot `_app`, and a trace of `dispose()` calls. -/
structure Yiila where
  bindings : List (String × Value)
  classMap : List (String × String)
  includePaths : Option (List String)
  imports : List (String × String)
  aliases : List (String × String)
  app : Option Value
  disposed : List Value

/-- The state at module load: `_aliases = {'system': __dirname}` and
everything else empty or null. -/
def initState (w : World) : Yiila :=
  { bindings := [], classMap := [], includePaths := none, imports := [],
    aliases := [("system", w.dirname)], app := none, disposed := [] }

/-- `_coreClasses`: the built-in table of well-known class names. -/
def coreClasses : List (String × String) :=
  [("CApplication", "core/CApplication"),
   ("CComponent", "core/CComponent"),
   ("CModel", "core/CModel"),
   ("CConsoleApplication", "console/CConsoleApplication"),
   ("CConsoleCommandRunner", "console/CConsoleCommandRunner"),
   ("CConsoleCommand", "console/CConsoleCommand"),
   ("CHelpCommand", "console/CHelpCommand"),
   ("CDaemonCommand", "console/CDaemonCommand"),
   ("CLogger", "logging/CLogger"),
   ("CLogRoute", "logging/CLogRoute"),
   ("CLogRouter", "logging/CLogRouter"),
   ("CConsoleLogRoute", "logging/CConsoleLogRoute"),
   ("CEmailLogRoute", "logging/CEmailLogRoute"),
   ("CFileLogRoute", "logging/CFileLogRoute"),
   ("CTaskQueue", "tasks/CTaskQueue"),
   ("CGearmanTaskQueue", "tasks/CGearmanTaskQueue"),
   ("CCache", "caching/CCache"),
   ("CCacheDependency", "caching/CCacheDependency"),
   ("CMemCache", "caching/CMemCache"),
   ("CWebPage", "net/CWebPage"),
   ("CNetworkProxy", "net/CNetworkProxy"),
   ("CDomHelper", "utils/CDomHelper"),
   ("CValidator", "validators/CValidator"),
   ("CBooleanValidator", "validators/CBooleanValidator"),
   ("CEmailValidator", "validators/CEmailValidator"),
   ("CInlineValidator", "validators/CInlineValidator"),
   ("CIpValidator", "validators/CIpValidator"),
   ("CNumberValidator", "validators/CNumberValidator"),
   ("CRangeValidator", "validators/CRangeValidator"),
   ("CRequiredValidator", "validators/CRequiredValidator"),
   ("CStringValidator", "validators/CStringValidator"),
   ("CUrlValidator", "validators/CUrlValidator")]

/-- The own method names of the `Base` object literal; `hasOwnProperty`
is true for them from the start. -/
def baseMethodNames : List String :=
  ["app", "createApplication", "createConsoleApplication", "setApplication",
   "createComponent", "getPathOfAlias", "setPathOfAlias", "import",
   "getLogger", "log", "trace", "t", "clone", "extend", "inherits"]

/-- `target.hasOwnProperty(name)`. -/
def hasOwn (s : Yiila) (n : String) : Bool :=
  (lookupStr s.bindings n).isSome || decide (n ∈ baseMethodNames)

/-- `target[name]` for an own property. -/
def getOwn (s : Yiila) (n : String) : Value :=
  match lookupStr s.bindings n with
  | some v => v
  | none => if n ∈ baseMethodNames then .baseMethod n else Value.undef

/-- `target[name] = v`. -/
def bindS (s : Yiila) (n : String) (v : Value) : Yiila :=
  { s with bindings := setKey s.bindings n v }

/-! ## The Proxy `get` handler (Lazy Resolution Registry) -/

/-- The directory scan of the `get` handler: for each directory in
`_includePaths`, in order, probe `path.join(dir, name + '.js')`; the loop
breaks at the first probe that yields a regular-file stat (a failed
`statSync` is caught and the carried-over stat is never a file). -/
def scanLoop (w : World) (name : String) : List String → Option String
  | [] => none
  | dir :: rest =>
    let classFile := pathJoin [dir, name ++ ".js"]
    if w.statIsFile classFile = true then some classFile
    else scanLoop w name rest

/-- The `get` trap of `module.exports = Proxy(Base, {...})`: an unbound
name is resolved through `_coreClasses`, then `_classMap`, then the
`_includePaths` scan; a successful resolution is assigned onto the target
(`target[name] = require(...)`); in debug mode a scan hit whose
string-computed basename differs from `name + '.js'` throws; a miss
returns the (undefined) `target[name]`. -/
def proxyGet (w : World) (s : Yiila) (name : String) :
    Except JsErr (Value × Yiila) :=
  if hasOwn s name = true then .ok (getOwn s name, s)
  else
    match lookupStr coreClasses name with
    | some rel =>
      let v := w.require (pathJoin [w.dirname, rel])
      .ok (v, bindS s name v)
    | none =>
      match lookupStr s.classMap name with
      | some fp =>
        let v := w.require fp
        .ok (v, bindS s name v)
      | none =>
        match s.includePaths with
        | none => .ok (.undef, s)
        | some dirs =>
          match scanLoop w name dirs with
          | none => .ok (.undef, s)
          | some cf =>
            if w.debug = true ∧ pathBasename cf ≠ name ++ ".js" then
              .error (.classFileMismatch name cf)
            else
              let v := w.require cf
              .ok (v, bindS s name v)

/-! ## Alias Resolver -/

/-- `getPathOfAlias(alias)`: an exact (truthy) hit in `_aliases` returns
at once; otherwise split at the first dot, require the root to be a
registered alias, join its path with the dot-delimited segments of the
rest — `delete` on a trailing `'*'` leaves a hole that `path.join`
filters — and cache the result in `_aliases` under the full alias.
`false` (here `none`) when the root is unknown. -/
def getPathOfAlias (s : Yiila) (al : String) : Option String × Yiila :=
  match lookupTruthy s.aliases al with
  | some p => (some p, s)
  | none =>
    match firstDotSplit al with
    | none => (none, s)
    | some (root, rest) =>
      match lookupTruthy s.aliases root with
      | none => (none, s)
      | some rp =>
        let args := strSplit rest '.'
        let args2 := if args.getLast? = some "*" then args.dropLast else args
        let p := pathJoin (rp :: args2)
        (some p, { s with aliases := setKey s.aliases al p })

/-- `setPathOfAlias(alias, path)`: a falsy `path` (null, or the empty
string) deletes the entry; otherwise the entry is set to
`path.resolve(process.cwd(), path)`. -/
def setPathOfAlias (w : World) (s : Yiila) (al : String) (p : Option String) :
    Yiila :=
  match p with
  | none => { s with aliases := delKey s.aliases al }
  | some q =>
    if q = "" then { s with aliases := delKey s.aliases al }
    else { s with aliases := setKey s.aliases al (pathResolve w.cwd q) }

/-! ## Class Importer -/

/-- `import(alias, forceInclude)` for a string alias. -/
def runImport (w : World) (s : Yiila) (al : String) (force : Bool) :
    Except JsErr (String × Yiila) :=
  match lookupTruthy s.imports al with
  | some r => .ok (r, s)
  | none =>
    match lastDotSegment al with
    | none =>
      -- a simple class name
      if force = true then
        match proxyGet w s al with
        | .error e => .error e
        | .ok (v, s1) =>
          if v.truthy = true then
            .ok (al, { s1 with imports := setKey s1.imports al al })
          else .ok (al, s1)
      else .ok (al, s)
    | some seg =>
      match getPathOfAlias s al with
      | (none, _) => .error (.invalidAlias al)
      | (some path, s1) =>
        if seg ≠ "*" then
          -- a class
          if force = true then
            if w.statIsFile (path ++ ".js") = true then
              let s2 := bindS s1 seg (w.require (path ++ ".js"))
              .ok (seg, { s2 with imports := setKey s2.imports al seg })
            else .error (.invalidAlias al)
          else
            .ok (seg, { s1 with classMap := setKey s1.classMap seg (path ++ ".js") })
        else
          -- a directory
          let ips := match s1.includePaths with
            | some l => l
            | none => [w.cwd]
          let ips2 := if path ∈ ips then ips else ips ++ [path]
          let s2 := { s1 with includePaths := some ips2 }
          .ok (path, { s2 with imports := setKey s2.imports al path })

/-- `import` as reached with a non-string alias (as `createComponent`
does): the `_imports` lookup coerces the key, and `alias.lastIndexOf` on
a non-string throws a `TypeError`. -/
def runImportV (w : World) (s : Yiila) (v : Value) (force : Bool) :
    Except JsErr (String × Yiila) :=
  match v with
  | .str a => runImport w s a force
  | _ =>
    match lookupTruthy s.imports (jsToString v) with
    | some r => .ok (r, s)
    | none => .error .typeError

/-! ## Component Factory -/

/-- The inner `construct(constructor, args)` helper of `createComponent`:
`new F()` with the arguments applied; a non-function constructor value
throws a `TypeError` (`constructor.prototype` / `constructor.apply`). -/
def newFromCtor (ctorV : Value) (args : List Value) : Except JsErr Value :=
  match ctorV with
  | .func id => .ok (.inst id args [])
  | _ => .error .typeError

/-- The `for (var key in config) if (key != 'class') obj[key] = config[key]`
overlay: assign every non-`'class'` own key of the descriptor onto the
fresh instance, in enumeration order. -/
def overlayProps (obj0 config1 : Value) : Value :=
  match obj0, config1 with
  | .inst id a props, .obj fields2 =>
    .inst id a
      ((fields2.filter (fun kv => kv.1 ≠ "class")).foldl
        (fun ps kv => setKey ps kv.1 kv.2) props)
  | o, _ => o

/-- `obj = construct(this[type], ctorArgs)` followed by the overlay:
fetch the constructor through the Proxy `get` trap, build the instance
and assign the descriptor's remaining keys onto it. -/
def constructAndOverlay (w : World) (typeV2 config1 : Value) (s3 : Yiila)
    (args : List Value) : Except JsErr (Value × Value × Yiila) :=
  match proxyGet w s3 (jsToString typeV2) with
  | .error e => .error e
  | .ok (ctorV, s4) =>
    match newFromCtor ctorV args with
    | .error e => .error e
    | .ok obj0 => .ok (overlayProps obj0 config1, config1, s4)

/-- `if (!this[type]) type = this.import(type, true);` — `tv2` is the
value `this[type]` produced; when it is falsy the type is force-imported
and its name becomes the new `type`. -/
def resolveTypeName (w : World) (typeV tv2 : Value) (s2 : Yiila) :
    Except JsErr (Value × Yiila) :=
  if tv2.truthy = true then .ok (typeV, s2)
  else
    match runImportV w s2 typeV true with
    | .error e => .error e
    | .ok (cn, s3) => .ok (.str cn, s3)

/-- The tail of `createComponent` after the descriptor has been examined:
read `this[type]`, force-import when falsy, construct and overlay. -/
def componentConstruct (w : World) (typeV config1 : Value) (s1 : Yiila)
    (args : List Value) : Except JsErr (Value × Value × Yiila) :=
  match proxyGet w s1 (jsToString typeV) with
  | .error e => .error e
  | .ok (tv2, s2) =>
    match resolveTypeName w typeV tv2 s2 with
    | .error e => .error e
    | .ok (typeV2, s3) => constructAndOverlay w typeV2 config1 s3 args

/-- `createComponent(config, ...args)`.  A string `config` is first read
back through the Proxy (`type = this[config]`) and replaced by a fresh
empty object; an object `config` must own a `'class'` element, which is
read and then deleted from the caller's object; otherwise a
`ConfigurationError` is thrown.  The rest is `componentConstruct`.
Returns the instance, the final state of the `config` object, and the
registry state. -/
def createComponent (w : World) (s : Yiila) (config : Value)
    (args : List Value) : Except JsErr (Value × Value × Yiila) :=
  let step1 : Except JsErr (Value × Value × Yiila) :=
    match config with
    | .str cs =>
      match proxyGet w s cs with
      | .error e => .error e
      | .ok (tv, s1) => .ok (tv, .obj [], s1)
    | .obj fields =>
      match lookupStr fields "class" with
      | some tv => .ok (tv, .obj (delKey fields "class"), s)
      | none => .error .configurationError
    | .undef => .error .typeError
    | _ => .error .configurationError
  match step1 with
  | .error e => .error e
  | .ok (typeV, config1, s1) => componentConstruct w typeV config1 s1 args

/-! ## Application Singleton Manager -/

/-- `setApplication(app)`: adopt when the slot is empty; clearing a
non-null slot calls the instance's `dispose()` first; a non-null argument
against a non-null slot throws.  Returns the post-call state and the
thrown error, if any. -/
def setApplication (s : Yiila) (a : Option Value) : Yiila × Option JsErr :=
  match s.app, a with
  | none, _ => ({ s with app := a }, none)
  | some cur, none =>
    if cur.truthy = true then
      ({ s with app := none, disposed := s.disposed ++ [cur] }, none)
    else ({ s with app := none }, none)
  | some _, some _ => (s, some .multipleApplication)

/-! ## Association-list lemmas -/

theorem lookupStr_setKey_self {α : Type} (m : List (String × α)) (k : String)
    (v : α) : lookupStr (setKey m k v) k = some v := by
  induction m with
  | nil => simp [setKey, lookupStr]
  | cons kv rest ih =>
    obtain ⟨k', v'⟩ := kv
    by_cases h : k' = k
    · simp [setKey, lookupStr, h]
    · simp [setKey, lookupStr, h, ih]

theorem lookupStr_setKey_ne {α : Type} (m : List (String × α)) (k k' : String)
    (v : α) (h : k' ≠ k) : lookupStr (setKey m k v) k' = lookupStr m k' := by
  have hne : ¬(k = k') := fun hh => h hh.symm
  induction m with
  | nil => simp [setKey, lookupStr, hne]
  | cons kv rest ih =>
    obtain ⟨k'', v''⟩ := kv
    by_cases hk : k'' = k
    · subst hk
      simp [setKey, lookupStr, hne]
    · simp only [setKey, if_neg hk, lookupStr]
      by_cases hk2 : k'' = k'
      · simp [hk2]
      · simp [hk2, ih]

theorem lookupStr_delKey_self {α : Type} (m : List (String × α)) (k : String) :
    lookupStr (delKey m k) k = none := by
  induction m with
  | nil => simp [delKey, lookupStr]
  | cons kv rest ih =>
    obtain ⟨k', v'⟩ := kv
    by_cases h : k' = k
    · simp [delKey, h, ih]
    · simp [delKey, lookupStr, h, ih]

theorem lookupStr_delKey_ne {α : Type} (m : List (String × α)) (k k' : String)
    (h : k' ≠ k) : lookupStr (delKey m k) k' = lookupStr m k' := by
  induction m with
  | nil => simp [delKey]
  | cons kv rest ih =>
    obtain ⟨k'', v''⟩ := kv
    by_cases hk : k'' = k
    · subst hk
      have hne : ¬(k'' = k') := fun hh => h hh.symm
      simp [delKey, lookupStr, hne, ih]
    · simp [delKey, lookupStr, hk, ih]

theorem lookupTruthy_delKey_self (m : List (String × String)) (k : String) :
    lookupTruthy (delKey m k) k = none := by
  simp [lookupTruthy, lookupStr_delKey_self]

theorem lookupTruthy_setKey_ne (m : List (String × String)) (k k' : String)
    (v : String) (h : k' ≠ k) :
    lookupTruthy (setKey m k v) k' = lookupTruthy m k' := by
  simp [lookupTruthy, lookupStr_setKey_ne m k k' v h]

theorem lookupTruthy_delKey_ne (m : List (String × String)) (k k' : String)
    (h : k' ≠ k) : lookupTruthy (delKey m k) k' = lookupTruthy m k' := by
  simp [lookupTruthy, lookupStr_delKey_ne m k k' h]

/-! ## Concrete worlds and states used to instantiate the theorems -/

/-- A plain world: no debug flag, no files on disk, every `require`
yields the same constructor. -/
def w0 : World :=
  { cwd := "/home/user", dirname := "/opt/yiila/lib", debug := false,
    statIsFile := fun _ => false, require := fun _ => .func 0 }

/-- The state after `setPathOfAlias('app', '/srv/app')` on a fresh
process. -/
def s8 : Yiila :=
  { bindings := [], classMap := [], includePaths := none, imports := [],
    aliases := [("system", "/opt/yiila/lib"), ("app", "/srv/app")],
    app := none, disposed := [] }

/-! ## C3: the application singleton -/

/-- C3: the Application Slot holds at most one live application:
`setApplication(a)` with non-null `a` from the empty slot succeeds;
a non-null argument against an occupied slot fails with
`MultipleApplicationError` and leaves the slot unchanged;
`setApplication(null)` on an occupied slot disposes the current instance
and empties the slot, after which a new application is adopted;
`setApplication(null)` on an empty slot is a no-op. -/
theorem setApplication_singleton (s : Yiila) (v b : Value) :
    (s.app = none →
       setApplication s (some v) = ({ s with app := some v }, none)) ∧
    (∀ a0, s.app = some a0 →
       setApplication s (some b) = (s, some JsErr.multipleApplication)) ∧
    (∀ a0, s.app = some a0 → a0.truthy = true →
       setApplication s none =
         ({ s with app := none, disposed := s.disposed ++ [a0] }, none) ∧
       setApplication { s with app := none, disposed := s.disposed ++ [a0] }
           (some b) =
         ({ s with app := some b, disposed := s.disposed ++ [a0] }, none)) ∧
    (s.app = none → setApplication s none = (s, none)) := by
  refine ⟨?_, ?_, ?_, ?_⟩
  · intro h
    simp [setApplication, h]
  · intro a0 h
    simp [setApplication, h]
  · intro a0 h htr
    constructor
    · simp [setApplication, h, htr]
    · simp [setApplication]
  · intro h
    have he : { s with app := none } = s := by rw [← h]
    simp only [setApplication, h, he]

/-- Witness for C3 at concrete inputs: a fresh slot adopts an instance;
a second registration fails; clearing disposes and lets a new instance
in; clearing an empty slot is a no-op. -/
theorem setApplication_singleton_witness :
    (setApplication (initState w0) (some (.inst 1 [] [])) =
       ({ initState w0 with app := some (.inst 1 [] []) }, none)) ∧
    (setApplication { initState w0 with app := some (.inst 1 [] []) }
         (some (.inst 2 [] [])) =
       ({ initState w0 with app := some (.inst 1 [] []) },
        some JsErr.multipleApplication)) ∧
    (setApplication { initState w0 with app := some (.inst 1 [] []) } none =
       ({ initState w0 with app := none, disposed := [.inst 1 [] []] }, none)) ∧
    (setApplication (initState w0) none = (initState w0, none)) := by
  refine ⟨?_, ?_, ?_, ?_⟩
  · exact (setApplication_singleton (initState w0) (.inst 1 [] [])
      (.inst 2 [] [])).1 rfl
  · exact (setApplication_singleton
      { initState w0 with app := some (.inst 1 [] []) } (.inst 1 [] [])
      (.inst 2 [] [])).2.1 (.inst 1 [] []) rfl
  · exact ((setApplication_singleton
      { initState w0 with app := some (.inst 1 [] []) } (.inst 1 [] [])
      (.inst 2 [] [])).2.2.1 (.inst 1 [] []) rfl rfl).1
  · exact (setApplication_singleton (initState w0) (.inst 1 [] [])
      (.inst 2 [] [])).2.2.2 rfl

/-! ## C7: compound-alias cache staleness -/

/-- C7: once a compound alias is cached in `_aliases` under its full
string, `setPathOfAlias` on any other key — in particular a reassignment
of the compound alias's root — does not change what `getPathOfAlias`
returns for that exact compound alias: the exact-match hit wins and the
path is never recomputed from the new root. -/
theorem alias_cache_stale_after_root_reassign (w : World) (s : Yiila)
    (a r q p : String) (h1 : lookupTruthy s.aliases a = some p) (h2 : r ≠ a) :
    getPathOfAlias (setPathOfAlias w s r (some q)) a =
      (some p, setPathOfAlias w s r (some q)) := by
  have ha : a ≠ r := Ne.symm h2
  unfold setPathOfAlias
  by_cases hq : q = ""
  · simp only [hq, if_pos rfl]
    unfold getPathOfAlias
    simp [lookupTruthy_delKey_ne s.aliases r a ha, h1]
  · simp only [if_neg hq]
    unfold getPathOfAlias
    simp [lookupTruthy_setKey_ne s.aliases r a (pathResolve w.cwd q) ha, h1]

/-- Witness for C7: with `app → /srv/app` registered and
`app.models.User` already resolved (hence cached), reassigning `app` to
`/other` leaves `getPathOfAlias('app.models.User')` at the stale
`/srv/app/models/User`. -/
theorem alias_cache_stale_witness :
    getPathOfAlias
        (setPathOfAlias w0
          { s8 with aliases :=
              s8.aliases ++ [("app.models.User", "/srv/app/models/User")] }
          "app" (some "/other"))
        "app.models.User" =
      (some "/srv/app/models/User",
       setPathOfAlias w0
         { s8 with aliases :=
             s8.aliases ++ [("app.models.User", "/srv/app/models/User")] }
         "app" (some "/other")) :=
  alias_cache_stale_after_root_reassign w0
    { s8 with aliases :=
        s8.aliases ++ [("app.models.User", "/srv/app/models/User")] }
    "app.models.User" "app" "/other" "/srv/app/models/User" rfl (by decide)

/-! ## C8: removal followed by resolution -/

/-- C8 counterexample: the claim "for every alias string `a`,
`setAlias(a, null)` then `resolve(a)` yields not-found" fails at
`a = "app.models.User"` with root alias `app → /srv/app` registered:
after the removal (a no-op here, the compound entry was never cached) the
resolver recomputes the path from the still-registered root and returns
it instead of not-found. -/
theorem setAlias_null_resolve_counterexample :
    (getPathOfAlias (setPathOfAlias w0 s8 "app.models.User" none)
        "app.models.User").1 = some "/srv/app/models/User" := rfl

/-- C8 amended: `setAlias(a, null)` removes the exact entry for `a`, and
a subsequent `resolve(a)` yields not-found provided `a` is not a compound
name whose root segment is still a registered alias; when the root is
still registered the resolver recomputes (and re-caches) the path
instead. -/
theorem setAlias_null_resolve_not_found (w : World) (s : Yiila) (a : String)
    (h : ∀ root rest, firstDotSplit a = some (root, rest) →
        lookupTruthy (delKey s.aliases a) root = none) :
    getPathOfAlias (setPathOfAlias w s a none) a =
      (none, setPathOfAlias w s a none) := by
  have hsp : setPathOfAlias w s a none = { s with aliases := delKey s.aliases a } :=
    rfl
  rw [hsp]
  unfold getPathOfAlias
  simp only [lookupTruthy_delKey_self s.aliases a]
  cases hfd : firstDotSplit a with
  | none => simp
  | some rr =>
    obtain ⟨root, rest⟩ := rr
    simp [h root rest hfd]

/-- Witness for C8 (amended) at a concrete input: removing the root alias
`app` itself makes a subsequent `resolve("app")` yield not-found. -/
theorem setAlias_null_resolve_not_found_witness :
    getPathOfAlias (setPathOfAlias w0 s8 "app" none) "app" =
      (none, setPathOfAlias w0 s8 "app" none) :=
  setAlias_null_resolve_not_found w0 s8 "app"
    (fun _ _ hc => nomatch hc)

/-! ## C6: setAlias stores `path.resolve(process.cwd(), path)` -/

/-- C6: contrary to the claim (and to the method's own doc comment,
"this method neither checks the existence of the path nor normalizes the
path"), `setPathOfAlias` stores `path.resolve(process.cwd(), path)`:
a trailing slash is stripped (`"/srv/app/"` is stored and returned as
`"/srv/app"`) and a relative path is resolved against the working
directory (`"data"` becomes `"/home/user/data"`), so an exact-match
`resolve` does not return the path exactly as passed in. -/
theorem setPathOfAlias_normalizes_despite_doc :
    (getPathOfAlias (setPathOfAlias w0 (initState w0) "app" (some "/srv/app/"))
        "app").1 = some "/srv/app" ∧
    (getPathOfAlias (setPathOfAlias w0 (initState w0) "rel" (some "data"))
        "rel").1 = some "/home/user/data" ∧
    ("/srv/app" : String) ≠ "/srv/app/" ∧
    ("/home/user/data" : String) ≠ "data" :=
  ⟨rfl, rfl, by decide, by decide⟩

/-! ## C5: the strict-mode case check is inert -/

/-- A debug-mode world over a case-insensitive filesystem: the include
path `/srv/app/models` holds the on-disk file `User.js`, so the stat
probe succeeds for the differently-cased `user.js` as well. -/
def w5 : World :=
  { cwd := "/home/user", dirname := "/opt/yiila/lib", debug := true,
    statIsFile := fun f => f == "/srv/app/models/user.js",
    require := fun _ => .func 7 }

/-- The registry state after a directory import of `/srv/app/models`. -/
def s5 : Yiila :=
  { bindings := [], classMap := [], includePaths := some ["/srv/app/models"],
    imports := [], aliases := [("system", "/opt/yiila/lib")],
    app := none, disposed := [] }

/-- C5: with the debug flag set and the scan matching a file whose
on-disk base name (`User.js`) differs in case from the requested name
(`user`), the reference binds the file silently instead of failing with
`ClassFileMismatch`: the guard compares `path.basename(classFile)` — a
string computed from the requested name itself — with `name + '.js'`,
which are always equal for plain type names, so the mismatch error is
unreachable in the claimed scenario. -/
theorem proxyGet_case_mismatch_binds_silently :
    w5.debug = true ∧
    proxyGet w5 s5 "user" = .ok (.func 7, bindS s5 "user" (.func 7)) :=
  ⟨rfl, rfl⟩

/-! ## C4: createComponent with a bare type-name string -/

/-- C4: `createComponent` with a bare type-name string that the registry
resolves does not return an instance: `type = this[config]` replaces the
string by the resolved constructor function, `this[type]` (the function
coerced to a property key) is undefined, and the forced
`this.import(type, true)` then calls `alias.lastIndexOf` on a function,
throwing a `TypeError`.  Evaluated at the resolvable built-in name
`"CApplication"` on a fresh state. -/
theorem createComponent_string_descriptor_throws :
    createComponent w0 (initState w0) (.str "CApplication") [] =
      .error .typeError := rfl

/-! ## C2: compound alias resolution -/

/-- C2: for a compound alias that is not an exact hit and whose root
segment is a registered alias, `getPathOfAlias` joins the root's path
with the dot-delimited segments of the remainder (a trailing `'*'`
segment is dropped), caches the result in `_aliases` under the full
original alias string, and returns it; when the root segment is unknown
it returns not-found (`false`) and never throws; instantiated on the
spec's scenario, `app → /srv/app` gives
`resolve("app.models.User") = "/srv/app/models/User"`. -/
theorem getPathOfAlias_compound (s : Yiila) (al root rest rp : String)
    (h1 : lookupTruthy s.aliases al = none)
    (h2 : firstDotSplit al = some (root, rest))
    (h3 : lookupTruthy s.aliases root = some rp) :
    (let args := strSplit rest '.'
     let args2 := if args.getLast? = some "*" then args.dropLast else args
     let p := pathJoin (rp :: args2)
     getPathOfAlias s al = (some p, { s with aliases := setKey s.aliases al p })) ∧
    (∀ s2 al2 root2 rest2, lookupTruthy s2.aliases al2 = none →
        firstDotSplit al2 = some (root2, rest2) →
        lookupTruthy s2.aliases root2 = none →
        getPathOfAlias s2 al2 = (none, s2)) ∧
    (getPathOfAlias (setPathOfAlias w0 (initState w0) "app" (some "/srv/app"))
        "app.models.User").1 = some "/srv/app/models/User" := by
  refine ⟨?_, ?_, rfl⟩
  · simp [getPathOfAlias, h1, h2, h3]
  · intro s2 al2 root2 rest2 g1 g2 g3
    simp [getPathOfAlias, g1, g2, g3]

/-- Witness for C2: resolving `app.models.User` against the registered
root `app → /srv/app` on a state where the compound name is not yet
cached. -/
theorem getPathOfAlias_compound_witness :
    getPathOfAlias s8 "app.models.User" =
      (some "/srv/app/models/User",
       { s8 with aliases :=
           setKey s8.aliases "app.models.User" "/srv/app/models/User" }) := by
  have h := (getPathOfAlias_compound s8 "app.models.User" "app" "models.User"
    "/srv/app" rfl rfl rfl).1
  exact h


/-! ## C9: createComponent mutates the caller's descriptor -/

theorem constructAndOverlay_cfg (w : World) (typeV2 config1 : Value)
    (s3 : Yiila) (args : List Value) (o cfg : Value) (s' : Yiila)
    (h : constructAndOverlay w typeV2 config1 s3 args = .ok (o, cfg, s')) :
    cfg = config1 := by
  unfold constructAndOverlay at h
  repeat' split at h
  all_goals simp_all

theorem componentConstruct_cfg (w : World) (typeV config1 : Value) (s1 : Yiila)
    (args : List Value) (o cfg : Value) (s' : Yiila)
    (h : componentConstruct w typeV config1 s1 args = .ok (o, cfg, s')) :
    cfg = config1 := by
  unfold componentConstruct at h
  repeat' split at h
  · simp_all
  · simp_all
  · exact constructAndOverlay_cfg _ _ _ _ _ _ _ _ h

/-- C9: when `createComponent` is given an object descriptor owning a
`'class'` element and the call succeeds, the `'class'` element has been
deleted from the caller's descriptor object itself before construction:
the descriptor's final state is exactly the original minus `'class'`,
with every other key left with its value and position, and no `'class'`
key remaining. -/
theorem createComponent_deletes_class_key (w : World) (s : Yiila)
    (fields : List (String × Value)) (args : List Value) (o cfg : Value)
    (s' : Yiila)
    (h : createComponent w s (.obj fields) args = .ok (o, cfg, s')) :
    cfg = .obj (delKey fields "class") ∧
    lookupStr (delKey fields "class") "class" = none ∧
    (∀ k, k ≠ "class" →
        lookupStr (delKey fields "class") k = lookupStr fields k) := by
  refine ⟨?_, lookupStr_delKey_self fields "class",
    fun k hk => lookupStr_delKey_ne fields "class" k hk⟩
  simp only [createComponent] at h
  cases hcl : lookupStr fields "class" with
  | none => rw [hcl] at h; simp at h
  | some tv =>
    rw [hcl] at h
    simp only [] at h
    exact componentConstruct_cfg w tv (.obj (delKey fields "class")) s args
      o cfg s' h

/-- The world for the C9 witness: every module loads to constructor 1. -/
def w9 : World :=
  { cwd := "/home/user", dirname := "/opt/yiila/lib", debug := false,
    statIsFile := fun _ => false, require := fun _ => .func 0 }

/-- The state for the C9 witness: `CFoo` is already bound on the
registry. -/
def s9 : Yiila :=
  { bindings := [("CFoo", .func 5)], classMap := [], includePaths := none,
    imports := [], aliases := [("system", "/opt/yiila/lib")],
    app := none, disposed := [] }

/-- Witness for C9 at a concrete successful call:
`createComponent({class: 'CFoo', foo: 'bar'})` with `CFoo` bound returns
an instance with `foo` assigned, and the descriptor ends as
`{foo: 'bar'}` — the `'class'` key is gone, `foo` untouched. -/
theorem createComponent_deletes_class_key_witness :
    Value.obj [("foo", Value.str "bar")] =
      .obj (delKey [("class", Value.str "CFoo"), ("foo", Value.str "bar")]
        "class") ∧
    lookupStr (delKey [("class", Value.str "CFoo"),
        ("foo", Value.str "bar")] "class") "class" = none ∧
    (∀ k, k ≠ "class" →
        lookupStr (delKey [("class", Value.str "CFoo"),
            ("foo", Value.str "bar")] "class") k =
          lookupStr [("class", Value.str "CFoo"),
            ("foo", Value.str "bar")] k) :=
  createComponent_deletes_class_key w9 s9
    [("class", .str "CFoo"), ("foo", .str "bar")] []
    (.inst 5 [] [("foo", .str "bar")]) (.obj [("foo", .str "bar")]) s9 rfl

/-! ## Registry lemmas shared by C1 and C10 -/

theorem hasOwn_bindS_self (s : Yiila) (n : String) (v : Value) :
    hasOwn (bindS s n v) n = true := by
  simp [hasOwn, bindS, lookupStr_setKey_self]

theorem getOwn_bindS_self (s : Yiila) (n : String) (v : Value) :
    getOwn (bindS s n v) n = v := by
  simp [getOwn, bindS, lookupStr_setKey_self]

theorem proxyGet_ok_state (w : World) (s : Yiila) (n : String) (v : Value)
    (s' : Yiila) (h : proxyGet w s n = .ok (v, s')) :
    s' = s ∨ s' = bindS s n v := by
  unfold proxyGet at h
  repeat' split at h
  all_goals try simp_all
  all_goals (obtain ⟨h1, h2⟩ := h; right; rw [← h1]; exact h2.symm)

theorem proxyGet_ok_includePaths (w : World) (s : Yiila) (n : String)
    (v : Value) (s' : Yiila) (h : proxyGet w s n = .ok (v, s')) :
    s'.includePaths = s.includePaths := by
  rcases proxyGet_ok_state w s n v s' h with rfl | rfl <;> rfl

theorem getPathOfAlias_includePaths (s : Yiila) (al : String) :
    (getPathOfAlias s al).2.includePaths = s.includePaths := by
  unfold getPathOfAlias
  repeat' split
  all_goals rfl

/-! ## C1: resolution order, graceful miss, permanent binding -/

/-- C1: for a name not already bound on the registry, the Proxy `get`
trap attempts, in order, the built-in core-class table, then the Class
Map, then a scan of the Include Path List directories in list order for
`<TypeName>.js`; the first success is assigned onto the target; when all
three miss the reference yields `undefined` with the state untouched
rather than throwing; and once a reference has resolved (the name is
bound in the resulting state), a later reference returns the same binding
with no further resolution or state change. -/
theorem proxyGet_resolution_order (w : World) (s : Yiila) (name : String)
    (h : hasOwn s name = false) :
    (∀ rel, lookupStr coreClasses name = some rel →
       proxyGet w s name =
         .ok (w.require (pathJoin [w.dirname, rel]),
              bindS s name (w.require (pathJoin [w.dirname, rel])))) ∧
    (lookupStr coreClasses name = none →
       ∀ fp, lookupStr s.classMap name = some fp →
         proxyGet w s name = .ok (w.require fp, bindS s name (w.require fp))) ∧
    (lookupStr coreClasses name = none →
       lookupStr s.classMap name = none →
       ∀ dirs cf, s.includePaths = some dirs →
         scanLoop w name dirs = some cf →
         (w.debug = false ∨ pathBasename cf = name ++ ".js") →
         proxyGet w s name = .ok (w.require cf, bindS s name (w.require cf))) ∧
    (lookupStr coreClasses name = none →
       lookupStr s.classMap name = none →
       (∀ dirs, s.includePaths = some dirs → scanLoop w name dirs = none) →
       proxyGet w s name = .ok (.undef, s)) ∧
    (∀ v s', proxyGet w s name = .ok (v, s') → hasOwn s' name = true →
       proxyGet w s' name = .ok (v, s')) := by
  refine ⟨?_, ?_, ?_, ?_, ?_⟩
  · intro rel hc
    simp [proxyGet, h, hc]
  · intro hc fp hm
    simp [proxyGet, h, hc, hm]
  · intro hc hm dirs cf hip hscan hdbg
    have hcond : ¬(w.debug = true ∧ pathBasename cf ≠ name ++ ".js") := by
      rcases hdbg with hd | hb
      · intro hcontra
        rw [hd] at hcontra
        exact Bool.false_ne_true hcontra.1
      · intro hcontra
        exact hcontra.2 hb
    simp [proxyGet, h, hc, hm, hip, hscan, hcond]
  · intro hc hm hsc
    cases hip : s.includePaths with
    | none => simp [proxyGet, h, hc, hm, hip]
    | some dirs => simp [proxyGet, h, hc, hm, hip, hsc dirs hip]
  · intro v s' hok hb
    rcases proxyGet_ok_state w s name v s' hok with rfl | rfl
    · rw [h] at hb
      exact absurd hb (by simp)
    · simp [proxyGet, hasOwn_bindS_self, getOwn_bindS_self]

/-- Witness for C1: on a fresh state, the unbound built-in name `CCache`
resolves through the core table and is bound. -/
theorem proxyGet_resolution_order_witness :
    hasOwn (initState w0) "CCache" = false ∧
    proxyGet w0 (initState w0) "CCache" =
      .ok (w0.require (pathJoin [w0.dirname, "caching/CCache"]),
           bindS (initState w0) "CCache"
             (w0.require (pathJoin [w0.dirname, "caching/CCache"]))) :=
  ⟨rfl,
   (proxyGet_resolution_order w0 (initState w0) "CCache" rfl).1
     "caching/CCache" rfl⟩

/-! ## C10: the working directory heads the Include Path List -/

theorem runImport_keeps_head (w : World) (s2 : Yiila) (al2 : String)
    (f2 : Bool) (r2 : String) (s3 : Yiila) (x : String) (l : List String)
    (hip2 : s2.includePaths = some (x :: l))
    (himp : runImport w s2 al2 f2 = .ok (r2, s3)) :
    ∃ l2, s3.includePaths = some (x :: l2) := by
  unfold runImport at himp
  cases hmm : lookupTruthy s2.imports al2 with
  | some r0 =>
    rw [hmm] at himp
    simp only [Except.ok.injEq, Prod.mk.injEq] at himp
    exact ⟨l, by rw [← himp.2]; exact hip2⟩
  | none =>
    rw [hmm] at himp
    cases hld : lastDotSegment al2 with
    | none =>
      rw [hld] at himp
      simp only [] at himp
      by_cases hf : f2 = true
      · rw [if_pos hf] at himp
        cases hpg : proxyGet w s2 al2 with
        | error e =>
          rw [hpg] at himp
          exact absurd himp (by simp)
        | ok vs =>
          obtain ⟨v1, s1⟩ := vs
          rw [hpg] at himp
          simp only [] at himp
          have hips1 : s1.includePaths = s2.includePaths :=
            proxyGet_ok_includePaths w s2 al2 v1 s1 hpg
          by_cases htr : v1.truthy = true
          · rw [if_pos htr] at himp
            simp only [Except.ok.injEq, Prod.mk.injEq] at himp
            refine ⟨l, ?_⟩
            rw [← himp.2]
            show s1.includePaths = some (x :: l)
            rw [hips1]
            exact hip2
          · rw [if_neg htr] at himp
            simp only [Except.ok.injEq, Prod.mk.injEq] at himp
            refine ⟨l, ?_⟩
            rw [← himp.2, hips1]
            exact hip2
      · rw [if_neg hf] at himp
        simp only [Except.ok.injEq, Prod.mk.injEq] at himp
        exact ⟨l, by rw [← himp.2]; exact hip2⟩
    | some seg =>
      rw [hld] at himp
      simp only [] at himp
      cases hg : getPathOfAlias s2 al2 with
      | mk op s1 =>
        have hips1 : s1.includePaths = s2.includePaths := by
          have hh := getPathOfAlias_includePaths s2 al2
          rw [hg] at hh
          exact hh
        cases op with
        | none =>
          rw [hg] at himp
          exact absurd himp (by simp)
        | some path =>
          rw [hg] at himp
          simp only [] at himp
          by_cases hseg : seg ≠ "*"
          · rw [if_pos hseg] at himp
            by_cases hf : f2 = true
            · rw [if_pos hf] at himp
              by_cases hst : w.statIsFile (path ++ ".js") = true
              · rw [if_pos hst] at himp
                simp only [Except.ok.injEq, Prod.mk.injEq] at himp
                refine ⟨l, ?_⟩
                rw [← himp.2]
                show s1.includePaths = some (x :: l)
                rw [hips1]
                exact hip2
              · rw [if_neg hst] at himp
                exact absurd himp (by simp)
            · rw [if_neg hf] at himp
              simp only [Except.ok.injEq, Prod.mk.injEq] at himp
              refine ⟨l, ?_⟩
              rw [← himp.2]
              show s1.includePaths = some (x :: l)
              rw [hips1]
              exact hip2
          · rw [if_neg hseg] at himp
            rw [hips1, hip2] at himp
            simp only [] at himp
            by_cases hmem : path ∈ x :: l
            · rw [if_pos hmem] at himp
              simp only [Except.ok.injEq, Prod.mk.injEq] at himp
              exact ⟨l, by rw [← himp.2]⟩
            · rw [if_neg hmem] at himp
              simp only [Except.ok.injEq, Prod.mk.injEq] at himp
              exact ⟨l ++ [path], by rw [← himp.2]; rfl⟩

/-- C10: the first directory-style (wildcard) import initializes
`_includePaths` with `process.cwd()` as its first element before the
newly imported directory is appended; every later directory scan
therefore probes the working directory for `<TypeName>.js` first (the
scan walks the list in order and the head never changes: any later
successful import only appends). -/
theorem includePaths_cwd_first (w : World) (s : Yiila) (al : String)
    (force : Bool) (r : String) (s' : Yiila)
    (h0 : s.includePaths = none)
    (h1 : lookupTruthy s.imports al = none)
    (h2 : lastDotSegment al = some "*")
    (h3 : runImport w s al force = .ok (r, s')) :
    (∃ rest, s'.includePaths = some (w.cwd :: rest)) ∧
    (∀ x l n2, w.statIsFile (pathJoin [x, n2 ++ ".js"]) = true →
       scanLoop w n2 (x :: l) = some (pathJoin [x, n2 ++ ".js"])) ∧
    (∀ s2 al2 f2 r2 s3 x l, s2.includePaths = some (x :: l) →
       runImport w s2 al2 f2 = .ok (r2, s3) →
       ∃ l2, s3.includePaths = some (x :: l2)) := by
  refine ⟨?_, ?_, ?_⟩
  · unfold runImport at h3
    rw [h1, h2] at h3
    simp only [] at h3
    cases hg : getPathOfAlias s al with
    | mk op s1 =>
      have hips1 : s1.includePaths = s.includePaths := by
        have hh := getPathOfAlias_includePaths s al
        rw [hg] at hh
        exact hh
      cases op with
      | none =>
        rw [hg] at h3
        exact absurd h3 (by simp)
      | some path =>
        rw [hg] at h3
        simp only [] at h3
        rw [if_neg (by simp)] at h3
        rw [hips1, h0] at h3
        simp only [] at h3
        by_cases hmem : path ∈ [w.cwd]
        · rw [if_pos hmem] at h3
          simp only [Except.ok.injEq, Prod.mk.injEq] at h3
          exact ⟨[], by rw [← h3.2]⟩
        · rw [if_neg hmem] at h3
          simp only [Except.ok.injEq, Prod.mk.injEq] at h3
          exact ⟨[path], by rw [← h3.2]; rfl⟩
  · intro x l n2 hst
    simp [scanLoop, hst]
  · intro s2 al2 f2 r2 s3 x l hip2 himp
    exact runImport_keeps_head w s2 al2 f2 r2 s3 x l hip2 himp

/-- The state reached by `import('system.models.*')` on a fresh process
with working directory `/home/user`. -/
def c10state : Yiila :=
  { bindings := [], classMap := [],
    includePaths := some ["/home/user", "/opt/yiila/lib/models"],
    imports := [("system.models.*", "/opt/yiila/lib/models")],
    aliases := [("system", "/opt/yiila/lib"),
                ("system.models.*", "/opt/yiila/lib/models")],
    app := none, disposed := [] }

/-- Witness for C10: the first wildcard import `system.models.*` on a
fresh state puts `/home/user` (the working directory) ahead of the
newly imported directory. -/
theorem includePaths_cwd_first_witness :
    (∃ rest, c10state.includePaths = some (w0.cwd :: rest)) ∧
    (∀ x l n2, w0.statIsFile (pathJoin [x, n2 ++ ".js"]) = true →
       scanLoop w0 n2 (x :: l) = some (pathJoin [x, n2 ++ ".js"])) ∧
    (∀ s2 al2 f2 r2 s3 x l, s2.includePaths = some (x :: l) →
       runImport w0 s2 al2 f2 = .ok (r2, s3) →
       ∃ l2, s3.includePaths = some (x :: l2)) :=
  includePaths_cwd_first w0 (initState w0) "system.models.*" false
    "/opt/yiila/lib/models" c10state rfl rfl rfl rfl
